/-
Verification of the semantic candidate-ranking engine
(`app/services/embedding_service.py`, `app/services/job_listing_service.py`,
`app/services/search_service.py`) against its natural-language specification.

The Python services are shallowly embedded as pure Lean functions:
  * document-store documents become records of `Option`-typed fields
    (MongoDB `$set` updates become explicit field-patch records),
  * `datetime` values become integers (only their ordering matters),
  * float vectors become rational vectors; the cosine score, which uses
    `numpy.linalg.norm` (a real square root), is modelled over `ℝ`,
  * Python truthiness (`if vector`, `x or default`) is modelled explicitly,
  * the asynchronous provider is modelled as a function from the attempt
    number to the provider's response for that attempt.
-/
import Mathlib

namespace CandidateRec

/-! ## Python truthiness helpers -/

/-- Truthiness of an optional string: `None` and `""` are falsy. -/
def truthyStr : Option String → Bool
  | none => false
  | some s => s ≠ ""

/-- Python `a or b` for optional strings (`a` wins iff it is truthy). -/
def pyOrOpt (a b : Option String) : Option String :=
  if truthyStr a then a else b

/-- Python `a or b` where `a : Optional[str]` and `b : str`. -/
def pyOrStr (a : Option String) (b : String) : String :=
  match a with
  | none => b
  | some s => if s = "" then b else s

/-- Python `f"{x}"` for an optional string: `None` renders as `"None"`. -/
def strOfOpt : Option String → String
  | none => "None"
  | some s => s

/-- Truthiness of an optional vector: `None` and the empty list are falsy. -/
def truthyVec : Option (List ℚ) → Bool
  | none => false
  | some v => !v.isEmpty

/-! ## Vector client (`EmbeddingService`, embedding_service.py)

`_sync_generate_embedding` loops calling the provider.  A provider call
either raises a transient `OpenAIError`, returns a malformed payload
(`response.data[0].embedding` not a list), or returns a vector.  The
provider is modelled as a function from the 0-based call number to that
call's response. -/

/-- Outcome of one provider call inside `_sync_generate_embedding`. -/
inductive ProviderResponse where
  | transient : ProviderResponse
  | malformed : ProviderResponse
  | ok (v : List ℚ) : ProviderResponse

/-- The errors `generate_job_embedding` can raise:
`EmbeddingServiceError("Azure OpenAI embedding request failed")` after the
retry budget, `EmbeddingServiceError("Embedding vector missing or invalid.")`
for a malformed payload, and the `ValueError` of `_validate_vector`. -/
inductive EmbFailure where
  | openAIExhausted : EmbFailure
  | malformedVector : EmbFailure
  | lengthMismatch (expected got : ℕ) : EmbFailure
deriving DecidableEq

/-- Result of `_sync_generate_embedding` (and of `generate_job_embedding`):
the value or raised error, the number of provider calls made, and the list
of back-off sleeps (`time.sleep(retry_delay_seconds * attempt)`) performed. -/
structure SyncOutcome where
  result : Except EmbFailure (List ℚ)
  calls : ℕ
  sleeps : List ℚ

/-- The `while True` loop of `_sync_generate_embedding`.  `attempt` is the
number of failed attempts so far (the Python local `attempt` at the top of
the iteration); each iteration makes exactly one provider call. -/
def syncAux (provider : ℕ → ProviderResponse) (maxRetries : ℕ) (delay : ℚ)
    (attempt : ℕ) : SyncOutcome :=
  match provider attempt with
  | .ok v => { result := .ok v, calls := attempt + 1, sleeps := [] }
  | .malformed =>
      { result := .error .malformedVector, calls := attempt + 1, sleeps := [] }
  | .transient =>
      if h : attempt + 1 ≥ maxRetries then
        { result := .error .openAIExhausted, calls := attempt + 1, sleeps := [] }
      else
        let rest := syncAux provider maxRetries delay (attempt + 1)
        { rest with sleeps := delay * ((attempt : ℚ) + 1) :: rest.sleeps }
termination_by maxRetries - attempt
decreasing_by omega

/-- `EmbeddingService._sync_generate_embedding` (embedding_service.py:61-78). -/
def syncGenerateEmbedding (provider : ℕ → ProviderResponse) (maxRetries : ℕ)
    (delay : ℚ) : SyncOutcome :=
  syncAux provider maxRetries delay 0

/-- `EmbeddingService.generate_job_embedding` (embedding_service.py:48-56):
run `_generate_embedding` and then `_validate_vector` against the configured
dimension.  A length mismatch raises `ValueError` with no further provider
call.  (`generate_candidate_embedding` is identical but for the input text,
which is irrelevant here.) -/
def generateJobEmbedding (provider : ℕ → ProviderResponse) (maxRetries : ℕ)
    (delay : ℚ) (dim : ℕ) : SyncOutcome :=
  let s := syncGenerateEmbedding provider maxRetries delay
  match s.result with
  | .ok v =>
      if v.length = dim then s
      else { s with result := .error (.lengthMismatch dim v.length) }
  | .error _ => s

/-! ## Job documents and the embedding freshness guard
(`JobListingService`, job_listing_service.py) -/

/-- The embedding-relevant fields of a job document.  Missing fields are
`none` (`job.get(...)` returns `None`). -/
structure JobDoc where
  id : ℕ
  vector : Option (List ℚ)          -- job_embedding_vector
  model : Option String             -- job_embedding_model
  dimensions : Option ℕ             -- job_embedding_dimensions
  status : Option String            -- job_embedding_status
  lastGeneratedAt : Option ℤ        -- job_embedding_last_generated_at
  error : Option String             -- job_embedding_error
  updatedAt : Option ℤ              -- updatedAt
deriving DecidableEq

/-- One MongoDB `update_one(..., {"$set": {...}})` on a job document:
`none` in the outer option means the field is not part of the `$set`. -/
structure JUpdate where
  vector : Option (Option (List ℚ)) := none
  model : Option (Option String) := none
  dimensions : Option (Option ℕ) := none
  status : Option (Option String) := none
  lastGeneratedAt : Option (Option ℤ) := none
  error : Option (Option String) := none
deriving DecidableEq

/-- Apply one atomic `$set` update to a job document. -/
def applyUpdate (d : JobDoc) (u : JUpdate) : JobDoc :=
  { d with
    vector := u.vector.getD d.vector
    model := u.model.getD d.model
    dimensions := u.dimensions.getD d.dimensions
    status := u.status.getD d.status
    lastGeneratedAt := u.lastGeneratedAt.getD d.lastGeneratedAt
    error := u.error.getD d.error }

/-- The exception raised by embedding generation inside `refresh_embedding`:
either an `EmbeddingServiceError` or any unexpected exception. -/
inductive RefreshError where
  | serviceError (msg : String) : RefreshError
  | unexpected (msg : String) : RefreshError
deriving DecidableEq

/-- The error message persisted by `refresh_embedding`'s failure handlers
(`str(exc)` resp. `f"Unexpected error: {str(exc)}"`). -/
def errMsg : RefreshError → String
  | .serviceError m => m
  | .unexpected m => "Unexpected error: " ++ m

/-- Successful result of `generate_job_embedding` as consumed by
`refresh_embedding` (embedding_service.py `EmbeddingResult`). -/
structure EmbResult where
  vector : List ℚ
  model : String
  generatedAt : ℤ

/-- The `$set` issued at the start of `refresh_embedding`
(job_listing_service.py:70-78). -/
def processingUpdate : JUpdate :=
  { status := some (some "processing"), error := some none }

/-- The single `$set` issued by `refresh_embedding`'s exception handlers
(job_listing_service.py:86-94 and 98-106). -/
def failureUpdate (e : RefreshError) : JUpdate :=
  { status := some (some "error"), error := some (some (errMsg e)) }

/-- The `$set` issued by `_persist_embedding`
(job_listing_service.py:186-198). -/
def persistUpdate (dim : ℕ) (r : EmbResult) : JUpdate :=
  { vector := some (some r.vector)
    model := some (some r.model)
    dimensions := some (some dim)
    status := some (some "ready")
    lastGeneratedAt := some (some r.generatedAt)
    error := some none }

/-- `JobListingService.refresh_embedding` (job_listing_service.py:55-110),
with the call to `generate_job_embedding` abstracted by its `outcome`.
Returns the list of atomic document updates issued, in order, and the
exception re-raised to the caller (if any).
`UserProfileService.refresh_embedding` (user_profile_service.py:112-171)
is field-for-field identical over the `embedding_*` field names. -/
def refreshEmbedding (dim : ℕ) (outcome : Except RefreshError EmbResult) :
    List JUpdate × Option RefreshError :=
  match outcome with
  | .error e => ([processingUpdate, failureUpdate e], some e)
  | .ok r => ([processingUpdate, persistUpdate dim r], none)

/-- Document state after `refresh_embedding` ran against `doc`. -/
def refreshedDoc (dim : ℕ) (doc : JobDoc) (outcome : Except RefreshError EmbResult) :
    JobDoc :=
  ((refreshEmbedding dim outcome).1).foldl applyUpdate doc

/-- The cache test of `ensure_embedding` (job_listing_service.py:152-161):
`if vector and last_generated:` then
`if not updated_at or last_generated >= updated_at: return vector`. -/
def cacheFresh (doc : JobDoc) : Bool :=
  match doc.vector, doc.lastGeneratedAt with
  | some v, some t =>
      if v.isEmpty then false
      else
        match doc.updatedAt with
        | none => true
        | some u => decide (u ≤ t)
  | _, _ => false

/-- The errors `ensure_embedding` can raise. -/
inductive EnsureError where
  | refreshError (e : RefreshError) : EnsureError
  | missingVector : EnsureError    -- "Failed to generate embedding for job"
deriving DecidableEq

/-- Result of `ensure_embedding`: the returned vector or raised error, the
number of `generate_job_embedding` invocations (each of which calls the
embedding provider), and the final persisted document. -/
structure EnsureOutcome where
  result : Except EnsureError (List ℚ)
  generateCalls : ℕ
  finalDoc : JobDoc

/-- The regeneration path of `ensure_embedding`
(job_listing_service.py:165-176): `refresh_embedding`, re-fetch the job,
and fail if it still has no (truthy) vector. -/
def ensureRegenerate (dim : ℕ) (doc : JobDoc)
    (outcome : Except RefreshError EmbResult) : EnsureOutcome :=
  let doc' := refreshedDoc dim doc outcome
  match (refreshEmbedding dim outcome).2 with
  | some e => { result := .error (.refreshError e), generateCalls := 1, finalDoc := doc' }
  | none =>
      match doc'.vector with
      | some v =>
          if v.isEmpty then
            { result := .error .missingVector, generateCalls := 1, finalDoc := doc' }
          else
            { result := .ok v, generateCalls := 1, finalDoc := doc' }
      | none => { result := .error .missingVector, generateCalls := 1, finalDoc := doc' }

/-- `JobListingService.ensure_embedding` (job_listing_service.py:136-176). -/
def ensureEmbedding (dim : ℕ) (doc : JobDoc)
    (outcome : Except RefreshError EmbResult) : EnsureOutcome :=
  match doc.vector, doc.lastGeneratedAt with
  | some v, some t =>
      if v.isEmpty then ensureRegenerate dim doc outcome
      else
        match doc.updatedAt with
        | none => { result := .ok v, generateCalls := 0, finalDoc := doc }
        | some u =>
            if u ≤ t then { result := .ok v, generateCalls := 0, finalDoc := doc }
            else ensureRegenerate dim doc outcome
  | _, _ => ensureRegenerate dim doc outcome

/-! ## Applied search: merge, sort, paginate
(`SearchService.search_applied`, search_service.py:60-219, and
`SearchService._fetch_applications`, search_service.py:324-364)

`search_applied` obtains `ranked_hits` from
`_fetch_and_rank_profiles_manually` and then merges them with the job's
application documents.  The merge stage is modelled as a pure function of
the application collection and the ranked hits; the hits carry the profile
fields the merge reads.  The similarity scores carried by the hits are
modelled as rationals (every float is rational). -/

/-- Projection of an `ExperienceDetail` to the fields the merge reads. -/
structure MExp where
  job_title : Option String
  company_name : Option String
deriving DecidableEq

/-- Projection of a `SearchCandidateHit` to the fields the merge reads
(presentation-only fields — contact info, dates, counts — are omitted;
no claim mentions them). -/
structure MHit where
  candidate_id : ℕ
  user_id : Option ℕ
  full_name : String
  current_job_title : Option String
  experience : List MExp
  similarity_score : Option ℚ
deriving DecidableEq

/-- Application document (`applicationcollections`) fields read by
`search_applied` and `_fetch_applications`. -/
structure AppDoc where
  id : ℕ
  candidateId : Option ℕ
  jobId : ℕ
  currentStatus : String
deriving DecidableEq

/-- Projection of an `AppliedCandidateHit` to the merged fields the claims
mention (the remaining fields are copied verbatim from the application
document and the profile). -/
structure MergedHit where
  app_id : ℕ
  candidateId : Option ℕ
  full_name : String
  job_status : String
  similarity_score : Option ℚ
deriving DecidableEq

/-- The query of `_fetch_applications`
(search_service.py:343: `{"jobId": job_object_id, "currentStatus": "Applied"}`);
with `page_size=0` the cursor returns every matching document and
`count_documents` returns their number. -/
def matchingApplications (apps : List AppDoc) (jobId : ℕ) : List AppDoc :=
  apps.filter (fun a => a.jobId == jobId && a.currentStatus == "Applied")

/-- The `profile_map` lookup (search_service.py:112):
`{str(hit.user_id): hit for hit in ranked_hits if hit.user_id}` — a dict
comprehension, so a later hit with the same `user_id` overwrites an earlier
one. -/
def profileLookup (hits : List MHit) (c : ℕ) : Option MHit :=
  hits.reverse.find? (fun h => h.user_id == some c)

/-- Company resolution inside the merge loop (search_service.py:162-172):
scan the experience list for the entry whose title equals the current
title; if the company is still `"Unknown Company"` afterwards, fall back to
the first experience entry's company. -/
def resolveCompany (title : Option String) (exps : List MExp) : String :=
  if exps.isEmpty then "Unknown Company"
  else
    let company :=
      match exps.find? (fun e => e.job_title == title) with
      | some e => pyOrStr e.company_name "Unknown Company"
      | none => "Unknown Company"
    if company = "Unknown Company" then
      match exps.head? with
      | some e0 => pyOrStr e0.company_name company
      | none => company
    else company

/-- The `job_status` derivation of the merge loop
(search_service.py:159-178), including the `elif profile.experience`
branch taken when the profile has no (truthy) current job title but a
non-empty experience list. -/
def jobStatus (p : MHit) : String :=
  if truthyStr p.current_job_title then
    strOfOpt p.current_job_title ++ " at " ++
      resolveCompany p.current_job_title p.experience
  else
    match p.experience.head? with
    | some latest => strOfOpt latest.job_title ++ " at " ++ strOfOpt latest.company_name
    | none => "Fresher"

/-- One iteration of the merge loop (search_service.py:119-200): look the
application's candidate up in `profile_map` (an application without a
`candidateId` looks up the key `"None"`, which is never present); a missing
profile skips the application with a logged warning — the loop never
raises. -/
def mergeOne (hits : List MHit) (app : AppDoc) : Option MergedHit :=
  app.candidateId.bind (fun c =>
    (profileLookup hits c).map (fun p =>
      { app_id := app.id
        candidateId := app.candidateId
        full_name := p.full_name
        job_status := jobStatus p
        similarity_score := p.similarity_score }))

/-- The merged results list built by the merge loop, before sorting and
pagination (`results` at search_service.py:202). -/
def mergedResults (apps : List AppDoc) (jobId : ℕ) (hits : List MHit) :
    List MergedHit :=
  (matchingApplications apps jobId).filterMap (mergeOne hits)

/-- The sort key of `results.sort(key=lambda x: x.similarity_score or -1.0,
reverse=True)` (search_service.py:203).  Python `or` treats a score of
`0.0` like a missing score: both map to `-1.0`. -/
def sortKey (h : MergedHit) : ℚ :=
  match h.similarity_score with
  | none => -1
  | some s => if s = 0 then -1 else s

/-- Descending-by-key order used by the final sort. -/
def byScoreDesc (a b : MergedHit) : Prop := sortKey b ≤ sortKey a

instance : DecidableRel byScoreDesc := fun a b =>
  inferInstanceAs (Decidable (sortKey b ≤ sortKey a))

instance : IsTotal MergedHit byScoreDesc :=
  ⟨fun a b => le_total (sortKey b) (sortKey a)⟩

instance : IsTrans MergedHit byScoreDesc :=
  ⟨fun _ _ _ hab hbc => le_trans hbc hab⟩

/-- `list.sort(key=..., reverse=True)` is a stable descending sort; so is
insertion sort over `byScoreDesc`, hence they compute the same list. -/
def sortMerged (l : List MergedHit) : List MergedHit :=
  l.insertionSort byScoreDesc

/-- The pagination slice `results[(page-1)*count : (page-1)*count + count]`
(search_service.py:206-208); the route layer guarantees `page ≥ 1` and
`count ≥ 1`, and Python slicing of a list with in-range non-negative bounds
is `drop`-then-`take`. -/
def paginate (l : List MergedHit) (page count : ℕ) : List MergedHit :=
  (l.drop ((page - 1) * count)).take count

/-- The response shape of `search_applied` (pagination metadata plus the
page of merged results). -/
structure AppliedResponse where
  results : List MergedHit
  page : ℕ
  page_size : ℕ
  total_matches : ℕ
deriving DecidableEq

/-- The merge/sort/paginate stage of `SearchService.search_applied`
(search_service.py:83-219), as a function of the application collection
and the ranked hits returned by `_fetch_and_rank_profiles_manually`.
When no application matches, the early return at line 89-96 reports
`total_matches = 0` and an empty result list. -/
def searchAppliedMerge (apps : List AppDoc) (jobId : ℕ) (hits : List MHit)
    (page count : ℕ) : AppliedResponse :=
  let applications := matchingApplications apps jobId
  if applications.isEmpty then
    { results := [], page := page, page_size := count, total_matches := 0 }
  else
    { results := paginate (sortMerged (mergedResults apps jobId hits)) page count
      page := page
      page_size := count
      total_matches := applications.length }

/-! ## Exact manual scoring
(`SearchService._fetch_and_rank_profiles_manually`, search_service.py:598-756)

Vectors are rational lists; `numpy.dot` over equal-length vectors is the
sum of componentwise products and `numpy.linalg.norm` is the real square
root of the sum of squares, so the score lives in `ℝ`. -/

/-- `numpy.dot` on (equal-length) vectors. -/
def dotQ (a b : List ℚ) : ℚ :=
  (List.zipWith (· * ·) a b).sum

/-- Squared euclidean norm, `dot v v`. -/
def normSq (v : List ℚ) : ℚ := dotQ v v

/-- `numpy.linalg.norm v` = `Real.sqrt (normSq v)`. -/
noncomputable def vnorm (v : List ℚ) : ℝ := Real.sqrt ((normSq v : ℚ) : ℝ)

/-- The guarded cosine score of the manual-scoring loop
(search_service.py:636-639): `if jd_norm > 0 and cand_norm > 0:
score = dot / (jd_norm * cand_norm)`, else the score stays `0.0`. -/
noncomputable def scoreVec (q v : List ℚ) : ℝ :=
  if 0 < vnorm q ∧ 0 < vnorm v then ((dotQ q v : ℚ) : ℝ) / (vnorm q * vnorm v)
  else 0

/-- The per-document score (search_service.py:633-639): `score = 0.0`
unless the document has a truthy (present, non-empty) `embedding_vector`,
in which case the guarded cosine score applies. -/
noncomputable def docScore (jd : List ℚ) (ev : Option (List ℚ)) : ℝ :=
  match ev with
  | none => 0
  | some v => if v.isEmpty then 0 else scoreVec jd v

/-- A raw experience entry of a user-profile document, with the legacy
field-name aliases the projection checks (search_service.py:661, 728-729).
Dates/description are presentation-only and no claim mentions them. -/
structure RawExp where
  position : Option String
  role : Option String
  title : Option String
  company : Option String
  company_name : Option String

/-- `exp.get("position") or exp.get("role") or exp.get("title")`. -/
def expTitle (e : RawExp) : Option String :=
  pyOrOpt (pyOrOpt e.position e.role) e.title

/-- `exp.get("company") or exp.get("company_name")`. -/
def expCompany (e : RawExp) : Option String :=
  pyOrOpt e.company e.company_name

/-- The `ExperienceDetail` projection of a raw entry, restricted to the
fields the merge reads. -/
def toMExp (e : RawExp) : MExp :=
  { job_title := expTitle e, company_name := expCompany e }

/-- The `personal_information` sub-document fields used for the name. -/
structure PersonalInfo where
  full_name : Option String
  first_name : Option String
  last_name : Option String

/-- `personal.get("full_name") or
f"{personal.get('first_name','')} {personal.get('last_name','')}".strip()`
(search_service.py:650). -/
def fullNameOf (p : PersonalInfo) : String :=
  match pyOrOpt p.full_name
      (some ((p.first_name.getD "" ++ " " ++ p.last_name.getD "").trim)) with
  | some s => s
  | none => ""

/-- `current_job_title` is read off the first experience entry
(search_service.py:656-661). -/
def currentTitleOf (exps : List RawExp) : Option String :=
  match exps.head? with
  | some latest => expTitle latest
  | none => none

/-- User-profile document fields read by
`_fetch_and_rank_profiles_manually` (`userprofiles` collection).  Only the
claim-relevant projection fields are carried (contact, skills, dates and
education are presentation-only and no claim mentions them). -/
structure ProfileDoc where
  id : ℕ
  user : Option ℕ
  embedding_vector : Option (List ℚ)
  personal_information : PersonalInfo
  experience : List RawExp

/-- A ranked hit of the manual-scoring path, projected to the fields the
claims mention (the `source` tag is the constant `"applied"`). -/
structure RHit where
  candidate_id : ℕ
  user_id : Option ℕ
  similarity_score : ℝ
  full_name : String
  current_job_title : Option String
  experience : List MExp

/-- The documents fetched by
`self._userprofiles.find({"user": {"$in": object_ids}})` followed by
`cursor.to_list(length=len(object_ids))` (search_service.py:619-620): the
matching profiles in collection order, capped at the number of requested
ids. -/
def rankedDocs (profiles : List ProfileDoc) (candidateIds : List ℕ) :
    List ProfileDoc :=
  (profiles.filter (fun p => match p.user with
    | some u => u ∈ candidateIds
    | none => false)).take candidateIds.length

/-- `SearchService._fetch_and_rank_profiles_manually`
(search_service.py:598-756): early-return `[]` on an empty id list, fetch
the profiles, and score each fetched document in order.  No sorting is
applied; the hits keep collection order. -/
noncomputable def fetchAndRankManually (profiles : List ProfileDoc)
    (jd : List ℚ) (candidateIds : List ℕ) : List RHit :=
  if candidateIds.isEmpty then []
  else
    (rankedDocs profiles candidateIds).map (fun doc =>
      { candidate_id := doc.id
        user_id := doc.user
        similarity_score := docScore jd doc.embedding_vector
        full_name := fullNameOf doc.personal_information
        current_job_title := currentTitleOf doc.experience
        experience := doc.experience.map toMExp })

/-! ## Theorems -/

/-- **C7.** The vector client makes at most `max_retries = 3` provider
attempts; between attempts it sleeps `retry_delay_seconds * attempt`
(linearly increasing); exhausting the budget on transient errors raises
`EmbeddingServiceError`; a malformed response fails on the first call with
no retry and no sleep; and a vector-length mismatch against the configured
dimension fails immediately without any further provider call. -/
theorem vector_client_retry_budget (p : ℕ → ProviderResponse) (d : ℚ) (dim : ℕ) :
    (syncGenerateEmbedding p 3 d).calls ≤ 3
    ∧ (syncGenerateEmbedding p 3 d).sleeps =
        (List.range ((syncGenerateEmbedding p 3 d).calls - 1)).map
          (fun i => d * ((i : ℚ) + 1))
    ∧ ((∀ i, i < 3 → p i = .transient) →
        (syncGenerateEmbedding p 3 d).result = .error .openAIExhausted
        ∧ (syncGenerateEmbedding p 3 d).calls = 3)
    ∧ (p 0 = .malformed →
        (syncGenerateEmbedding p 3 d).result = .error .malformedVector
        ∧ (syncGenerateEmbedding p 3 d).calls = 1
        ∧ (syncGenerateEmbedding p 3 d).sleeps = [])
    ∧ (∀ v, (syncGenerateEmbedding p 3 d).result = .ok v → v.length ≠ dim →
        (generateJobEmbedding p 3 d dim).result = .error (.lengthMismatch dim v.length)
        ∧ (generateJobEmbedding p 3 d dim).calls = (syncGenerateEmbedding p 3 d).calls) := by
  have step : ∀ v, (syncGenerateEmbedding p 3 d).result = .ok v → v.length ≠ dim →
      (generateJobEmbedding p 3 d dim).result = .error (.lengthMismatch dim v.length)
      ∧ (generateJobEmbedding p 3 d dim).calls = (syncGenerateEmbedding p 3 d).calls := by
    intro v hv hlen
    simp [generateJobEmbedding, hv, hlen]
  rcases h0 : p 0 with _ | _ | v0
  · rcases h1 : p 1 with _ | _ | v1
    · rcases h2 : p 2 with _ | _ | v2
      · have hout : syncGenerateEmbedding p 3 d =
            ⟨.error .openAIExhausted, 3, [d * 1, d * 2]⟩ := by
          simp [syncGenerateEmbedding, syncAux, h0, h1, h2]; try norm_num
        refine ⟨by rw [hout], by rw [hout]; norm_num [List.range_succ], ?_, ?_, step⟩
        · intro _; rw [hout]; exact ⟨rfl, rfl⟩
        · intro hm; cases hm
      · have hout : syncGenerateEmbedding p 3 d =
            ⟨.error .malformedVector, 3, [d * 1, d * 2]⟩ := by
          simp [syncGenerateEmbedding, syncAux, h0, h1, h2]; try norm_num
        refine ⟨by rw [hout], by rw [hout]; norm_num [List.range_succ], ?_, ?_, step⟩
        · intro h; have := h 2 (by norm_num); rw [h2] at this; cases this
        · intro hm; cases hm
      · have hout : syncGenerateEmbedding p 3 d = ⟨.ok v2, 3, [d * 1, d * 2]⟩ := by
          simp [syncGenerateEmbedding, syncAux, h0, h1, h2]; try norm_num
        refine ⟨by rw [hout], by rw [hout]; norm_num [List.range_succ], ?_, ?_, step⟩
        · intro h; have := h 2 (by norm_num); rw [h2] at this; cases this
        · intro hm; cases hm
    · have hout : syncGenerateEmbedding p 3 d = ⟨.error .malformedVector, 2, [d * 1]⟩ := by
        simp [syncGenerateEmbedding, syncAux, h0, h1]; try norm_num
      refine ⟨by rw [hout]; norm_num, by rw [hout]; norm_num [List.range_succ], ?_, ?_, step⟩
      · intro h; have := h 1 (by norm_num); rw [h1] at this; cases this
      · intro hm; cases hm
    · have hout : syncGenerateEmbedding p 3 d = ⟨.ok v1, 2, [d * 1]⟩ := by
        simp [syncGenerateEmbedding, syncAux, h0, h1]; try norm_num
      refine ⟨by rw [hout]; norm_num, by rw [hout]; norm_num [List.range_succ], ?_, ?_, step⟩
      · intro h; have := h 1 (by norm_num); rw [h1] at this; cases this
      · intro hm; cases hm
  · have hout : syncGenerateEmbedding p 3 d = ⟨.error .malformedVector, 1, []⟩ := by
      simp [syncGenerateEmbedding, syncAux, h0]
    refine ⟨by rw [hout]; norm_num, by rw [hout]; norm_num, ?_, ?_, step⟩
    · intro h; have := h 0 (by norm_num); rw [h0] at this; cases this
    · intro _; rw [hout]; exact ⟨rfl, rfl, rfl⟩
  · have hout : syncGenerateEmbedding p 3 d = ⟨.ok v0, 1, []⟩ := by
      simp [syncGenerateEmbedding, syncAux, h0]
    refine ⟨by rw [hout]; norm_num, by rw [hout]; norm_num, ?_, ?_, step⟩
    · intro h; have := h 0 (by norm_num); rw [h0] at this; cases this
    · intro hm; cases hm

/-- Witness for `vector_client_retry_budget`: an always-failing provider
exhausts exactly 3 calls with back-offs `[2, 4]`. -/
theorem vector_client_retry_budget_witness :
    (syncGenerateEmbedding (fun _ => .transient) 3 2).result
        = .error .openAIExhausted
    ∧ (syncGenerateEmbedding (fun _ => .transient) 3 2).calls = 3 :=
  (vector_client_retry_budget (fun _ => .transient) 2 5).2.2.1 (fun _ _ => rfl)

/-- **C1.** For every job document with `status = ready` and a stored
(non-empty) vector whose `job_embedding_last_generated_at` is `≥` its
`updatedAt`, `ensure_embedding` makes no embedding-generation call (cache
hit) and returns exactly the stored vector. -/
theorem ensure_embedding_cache_hit (dim : ℕ) (doc : JobDoc)
    (outcome : Except RefreshError EmbResult) (v : List ℚ) (t u : ℤ)
    (_hs : doc.status = some "ready") (hv : doc.vector = some v) (hne : v ≠ [])
    (ht : doc.lastGeneratedAt = some t) (hu : doc.updatedAt = some u)
    (hge : u ≤ t) :
    (ensureEmbedding dim doc outcome).generateCalls = 0 ∧
    (ensureEmbedding dim doc outcome).result = .ok v := by
  cases v with
  | nil => exact absurd rfl hne
  | cons a as => simp [ensureEmbedding, hv, ht, hu, hge]

/-- Witness for `ensure_embedding_cache_hit` at a concrete job document. -/
theorem ensure_embedding_cache_hit_witness :
    (ensureEmbedding 3 ⟨1, some [1, 0, 0], some "m", some 3, some "ready",
        some 5, none, some 4⟩ (.ok ⟨[1, 0, 0], "m", 9⟩)).generateCalls = 0 ∧
    (ensureEmbedding 3 ⟨1, some [1, 0, 0], some "m", some 3, some "ready",
        some 5, none, some 4⟩ (.ok ⟨[1, 0, 0], "m", 9⟩)).result = .ok [1, 0, 0] :=
  ensure_embedding_cache_hit 3 _ _ [1, 0, 0] 5 4 rfl rfl
    (by simp) rfl rfl (by norm_num)

/-- **C8.** When embedding generation fails inside `refresh_embedding`
(an `EmbeddingServiceError` or any unexpected error), the failure handler
issues exactly one further document update, that update's `$set` contains
only the status and the error message (in particular it does not touch the
stored vector), the persisted document ends with `status = "error"` and
the message while its vector is unchanged, and the exception is re-raised
to the caller. -/
theorem refresh_embedding_failure_write (dim : ℕ) (doc : JobDoc)
    (e : RefreshError) :
    refreshEmbedding dim (.error e) = ([processingUpdate, failureUpdate e], some e)
    ∧ (failureUpdate e).vector = none
    ∧ (failureUpdate e).model = none
    ∧ (failureUpdate e).dimensions = none
    ∧ (failureUpdate e).lastGeneratedAt = none
    ∧ (failureUpdate e).status = some (some "error")
    ∧ (failureUpdate e).error = some (some (errMsg e))
    ∧ (refreshedDoc dim doc (.error e)).vector = doc.vector
    ∧ (refreshedDoc dim doc (.error e)).status = some "error"
    ∧ (refreshedDoc dim doc (.error e)).error = some (errMsg e) := by
  refine ⟨rfl, rfl, rfl, rfl, rfl, rfl, rfl, ?_, ?_, ?_⟩ <;>
    simp [refreshedDoc, refreshEmbedding, applyUpdate, processingUpdate,
      failureUpdate]

/-- **C10.** `ensure_embedding` never reads `job_embedding_status`: two
job documents differing only in that field get the same provider-call
decision and the same returned vector; in particular a document with
status `"error"` or `"stale"` but a present vector and
`generated_at ≥ updatedAt` is still served from cache. -/
theorem ensure_embedding_status_independent (dim : ℕ) (doc : JobDoc)
    (outcome : Except RefreshError EmbResult) (s₁ s₂ : Option String)
    (v : List ℚ) (t u : ℤ) :
    ((ensureEmbedding dim { doc with status := s₁ } outcome).generateCalls
        = (ensureEmbedding dim { doc with status := s₂ } outcome).generateCalls
      ∧ (ensureEmbedding dim { doc with status := s₁ } outcome).result
        = (ensureEmbedding dim { doc with status := s₂ } outcome).result)
    ∧ ((doc.status = some "error" ∨ doc.status = some "stale") →
        doc.vector = some v → v ≠ [] → doc.lastGeneratedAt = some t →
        doc.updatedAt = some u → u ≤ t →
        (ensureEmbedding dim doc outcome).generateCalls = 0 ∧
        (ensureEmbedding dim doc outcome).result = .ok v) := by
  constructor
  · obtain ⟨i, vec, mdl, dims, st, lg, err, upd⟩ := doc
    have hregen : ∀ s : Option String,
        (ensureRegenerate dim ⟨i, vec, mdl, dims, s, lg, err, upd⟩ outcome).generateCalls
          = (ensureRegenerate dim ⟨i, vec, mdl, dims, none, lg, err, upd⟩ outcome).generateCalls
        ∧ (ensureRegenerate dim ⟨i, vec, mdl, dims, s, lg, err, upd⟩ outcome).result
          = (ensureRegenerate dim ⟨i, vec, mdl, dims, none, lg, err, upd⟩ outcome).result := by
      intro s
      cases outcome with
      | error e =>
          simp [ensureRegenerate, refreshedDoc, refreshEmbedding, applyUpdate,
            processingUpdate, failureUpdate]
      | ok r =>
          simp [ensureRegenerate, refreshedDoc, refreshEmbedding, applyUpdate,
            processingUpdate, persistUpdate]
    have key : ∀ s : Option String,
        (ensureEmbedding dim ⟨i, vec, mdl, dims, s, lg, err, upd⟩ outcome).generateCalls
          = (ensureEmbedding dim ⟨i, vec, mdl, dims, none, lg, err, upd⟩ outcome).generateCalls
        ∧ (ensureEmbedding dim ⟨i, vec, mdl, dims, s, lg, err, upd⟩ outcome).result
          = (ensureEmbedding dim ⟨i, vec, mdl, dims, none, lg, err, upd⟩ outcome).result := by
      intro s
      rcases vec with _ | l
      · simpa [ensureEmbedding] using hregen s
      · rcases l with _ | ⟨v0, vs⟩
        · rcases lg with _ | t0
          · simpa [ensureEmbedding] using hregen s
          · simpa [ensureEmbedding] using hregen s
        · rcases lg with _ | t0
          · simpa [ensureEmbedding] using hregen s
          · rcases upd with _ | u0
            · simp [ensureEmbedding]
            · by_cases hc : u0 ≤ t0
              · simp [ensureEmbedding, hc]
              · simpa [ensureEmbedding, hc] using hregen s
    exact ⟨(key s₁).1.trans (key s₂).1.symm, (key s₁).2.trans (key s₂).2.symm⟩
  · intro _ hv hne ht hu hge
    cases v with
    | nil => exact absurd rfl hne
    | cons a as => simp [ensureEmbedding, hv, ht, hu, hge]

/-- Witness for `ensure_embedding_status_independent`: a job document with
status `"error"` but a fresh stored vector is served from cache. -/
theorem ensure_embedding_status_independent_witness :
    (ensureEmbedding 3 ⟨1, some [1, 0, 0], some "m", some 3, some "error",
        some 5, some "boom", some 4⟩ (.ok ⟨[2, 0, 0], "m", 9⟩)).generateCalls = 0 ∧
    (ensureEmbedding 3 ⟨1, some [1, 0, 0], some "m", some 3, some "error",
        some 5, some "boom", some 4⟩ (.ok ⟨[2, 0, 0], "m", 9⟩)).result = .ok [1, 0, 0] :=
  (ensure_embedding_status_independent 3
      ⟨1, some [1, 0, 0], some "m", some 3, some "error", some 5, some "boom", some 4⟩
      (.ok ⟨[2, 0, 0], "m", 9⟩) (some "error") (some "ready") [1, 0, 0] 5 4).2
    (Or.inl rfl) rfl (by simp) rfl rfl (by norm_num)

/-- The result list of the merge stage is always the pagination of the
sorted merged list (in the early-return branch all three are empty). -/
theorem searchAppliedMerge_results (apps : List AppDoc) (jobId : ℕ)
    (hits : List MHit) (page count : ℕ) :
    (searchAppliedMerge apps jobId hits page count).results
      = paginate (sortMerged (mergedResults apps jobId hits)) page count := by
  by_cases h : (matchingApplications apps jobId).isEmpty
  · simp [searchAppliedMerge, h, mergedResults, List.isEmpty_iff.mp h, sortMerged,
      paginate]
  · simp [searchAppliedMerge, h]

/-- Auxiliary counting identity: dropping the entries on which `f` fails is
all `filterMap` does. -/
theorem length_filterMap_add {α β : Type} (f : α → Option β) :
    ∀ l : List α,
      (l.filterMap f).length + (l.filter (fun a => (f a).isNone)).length = l.length
  | [] => rfl
  | a :: l => by
    cases hf : f a <;>
      simp [List.filterMap_cons, hf, List.filter_cons] <;>
    · have := length_filterMap_add f l
      omega

/-- **C2.** For a job with `N` matching applications of which `M` have a
candidate with no matching ranked hit, the merge loop drops those `M`
applications (a logged warning, never an error — the loop is total) and
builds exactly `N − M` merged hits before pagination, while the reported
`total_matches` still equals `N`, the pre-merge application count. -/
theorem search_applied_merge_counts (apps : List AppDoc) (jobId : ℕ)
    (hits : List MHit) (page count : ℕ) :
    (mergedResults apps jobId hits).length
      = (matchingApplications apps jobId).length
        - ((matchingApplications apps jobId).filter
            (fun a => (mergeOne hits a).isNone)).length
    ∧ (searchAppliedMerge apps jobId hits page count).total_matches
      = (matchingApplications apps jobId).length := by
  constructor
  · have := length_filterMap_add (mergeOne hits) (matchingApplications apps jobId)
    unfold mergedResults
    omega
  · by_cases h : (matchingApplications apps jobId).isEmpty
    · simp [searchAppliedMerge, h, List.isEmpty_iff.mp h]
    · simp [searchAppliedMerge, h]

/-- **C3 (counterexample).** `search_applied` does **not** sort the merged
list descending by similarity score with only *missing* scores mapped to
`−1.0`: the sort key is `x.similarity_score or -1.0`, and Python `or`
also sends a present score of `0.0` to `−1.0`.  With merged scores
`[−1, 0]` in application order, both sort keys are `−1`, the stable sort
keeps the order, and the returned page has scores `[−1, 0]` — ascending,
although under the claimed key (`getD (-1)`, missing ↦ −1 only) a
descending sort would have produced `[0, −1]`. -/
theorem search_applied_claim_sort_cex :
    ((searchAppliedMerge
        [⟨1, some 1, 5, "Applied"⟩, ⟨2, some 2, 5, "Applied"⟩] 5
        [⟨10, some 1, "A", none, [], some (-1)⟩, ⟨20, some 2, "B", none, [], some 0⟩]
        1 10).results.map (fun m => m.similarity_score.getD (-1)))
      = [-1, 0]
    ∧ ¬ ((searchAppliedMerge
        [⟨1, some 1, 5, "Applied"⟩, ⟨2, some 2, 5, "Applied"⟩] 5
        [⟨10, some 1, "A", none, [], some (-1)⟩, ⟨20, some 2, "B", none, [], some 0⟩]
        1 10).results.map (fun m => m.similarity_score.getD (-1))).Sorted (· ≥ ·) := by
  decide

/-- **C3 (amended).** `search_applied` sorts the full merged list
descending by the key `similarity_score or -1.0` — which maps a missing
*or zero* score to `−1.0` — and only after sorting paginates with the
slice `[(page-1)*size : (page-1)*size + size]`; a page beyond the end of
the list yields an empty result list, and the whole stage is a total
function (never raises). -/
theorem search_applied_sort_paginate (apps : List AppDoc) (jobId : ℕ)
    (hits : List MHit) (page count : ℕ) :
    List.Sorted byScoreDesc (sortMerged (mergedResults apps jobId hits))
    ∧ (searchAppliedMerge apps jobId hits page count).results
        = paginate (sortMerged (mergedResults apps jobId hits)) page count
    ∧ ((sortMerged (mergedResults apps jobId hits)).length ≤ (page - 1) * count →
        (searchAppliedMerge apps jobId hits page count).results = []) := by
  have hsorted : List.Sorted byScoreDesc (sortMerged (mergedResults apps jobId hits)) :=
    List.sorted_insertionSort byScoreDesc _
  refine ⟨hsorted, searchAppliedMerge_results apps jobId hits page count, fun hlen => ?_⟩
  rw [searchAppliedMerge_results apps jobId hits page count]
  unfold paginate
  rw [List.drop_eq_nil_of_le hlen, List.take_nil]

/-- Witness for `search_applied_sort_paginate`: with no ranked hits the
merged list is empty and page 3 of size 4 is past the end, so the page is
empty. -/
theorem search_applied_sort_paginate_witness :
    (sortMerged (mergedResults [⟨1, some 1, 5, "Applied"⟩] 5 [])).length ≤ (3 - 1) * 4
    ∧ (searchAppliedMerge [⟨1, some 1, 5, "Applied"⟩] 5 [] 3 4).results = [] :=
  ⟨by decide,
    (search_applied_sort_paginate [⟨1, some 1, 5, "Applied"⟩] 5 [] 3 4).2.2 (by decide)⟩

/-- The company fallback of the amended C6: the first experience entry's
company when truthy, else `"Unknown Company"`. -/
def firstCompany (exps : List MExp) : String :=
  match exps.head? with
  | some e0 => pyOrStr e0.company_name "Unknown Company"
  | none => "Unknown Company"

/-- The amended C6 `job_status` rule:
with a truthy current job title, `"<title> at <company>"` where the
company is the title-matching entry's company when it is non-empty,
otherwise the first entry's company, otherwise `"Unknown Company"`;
with no truthy current title but a non-empty experience list,
`"<first title> at <first company>"` (missing values rendered `"None"`);
`"Fresher"` only when there is neither. -/
def jobStatusAmended (p : MHit) : String :=
  if truthyStr p.current_job_title then
    strOfOpt p.current_job_title ++ " at " ++
      (match p.experience.find? (fun e => e.job_title == p.current_job_title) with
        | some e =>
            match e.company_name with
            | some s => if s = "" then firstCompany p.experience else s
            | none => firstCompany p.experience
        | none => firstCompany p.experience)
  else
    match p.experience.head? with
    | some latest => strOfOpt latest.job_title ++ " at " ++ strOfOpt latest.company_name
    | none => "Fresher"

/-- The code's `job_status` coincides with the amended rule for every
profile none of whose experience entries carries the literal company name
`"Unknown Company"` (the code compares the resolved company against that
sentinel string, so a candidate actually employed at a company called
"Unknown Company" would take the fallback; the side condition rules that
out). -/
theorem jobStatus_eq_amended (p : MHit)
    (hU : ∀ e ∈ p.experience, e.company_name ≠ some "Unknown Company") :
    jobStatus p = jobStatusAmended p := by
  unfold jobStatus jobStatusAmended
  by_cases ht : truthyStr p.current_job_title
  · simp only [ht, if_true]
    unfold resolveCompany
    rcases hexp : p.experience with _ | ⟨e0, es⟩
    · simp [firstCompany]
    · simp only [List.isEmpty_cons, if_false, Bool.false_eq_true]
      rcases hfind : (e0 :: es).find? (fun e => e.job_title == p.current_job_title)
          with _ | e
      · simp [hfind, firstCompany]
      · have hmem : e ∈ p.experience := hexp ▸ List.mem_of_find?_eq_some hfind
        rcases hcn : e.company_name with _ | s
        · simp [hfind, hcn, pyOrStr, firstCompany]
        · by_cases hs : s = ""
          · simp [hfind, hcn, pyOrStr, hs, firstCompany]
          · have hne : s ≠ "Unknown Company" := by
              intro hcon
              exact hU e hmem (by rw [hcn, hcon])
            simp [hfind, hcn, pyOrStr, hs, hne]
  · rw [Bool.not_eq_true] at ht
    simp [ht]

/-- **C6 (amended).** Every merged hit of `search_applied` gets its
`job_status` from its candidate's looked-up profile by the amended rule
(`jobStatusAmended`): `"Fresher"` only when the profile has no truthy
current job title *and* no experience entries; with experience but no
current title, `"<first title> at <first company>"`; with a current
title, `"<title> at <company>"` with the company resolved by scanning for
the title-matching entry, falling back to the first entry's company
whenever the scan yields no non-empty company, and to
`"Unknown Company"` when that is also absent.  (Side condition: no entry's
stored company is the literal sentinel string `"Unknown Company"`.) -/
theorem merged_job_status (apps : List AppDoc) (jobId : ℕ) (hits : List MHit)
    (page count : ℕ)
    (hU : ∀ h ∈ hits, ∀ e ∈ h.experience, e.company_name ≠ some "Unknown Company") :
    ∀ m ∈ (searchAppliedMerge apps jobId hits page count).results,
      ∃ c p, m.candidateId = some c ∧ profileLookup hits c = some p
        ∧ m.job_status = jobStatusAmended p := by
  intro m hm
  rw [searchAppliedMerge_results apps jobId hits page count] at hm
  unfold paginate at hm
  have h1 : m ∈ sortMerged (mergedResults apps jobId hits) :=
    List.drop_subset _ _ (List.take_subset _ _ hm)
  have h2 : m ∈ mergedResults apps jobId hits :=
    (List.perm_insertionSort byScoreDesc _).mem_iff.mp h1
  rcases List.mem_filterMap.mp h2 with ⟨app, -, hmerge⟩
  unfold mergeOne at hmerge
  rcases happC : app.candidateId with _ | c
  · rw [happC] at hmerge
    simp at hmerge
  · rw [happC] at hmerge
    rw [Option.some_bind] at hmerge
    rcases hlook : profileLookup hits c with _ | p
    · rw [hlook] at hmerge
      simp at hmerge
    · rw [hlook] at hmerge
      have hp : p ∈ hits :=
        List.mem_reverse.mp (List.mem_of_find?_eq_some hlook)
      have heq := Option.some.inj hmerge
      refine ⟨c, p, ?_, hlook, ?_⟩
      · rw [← heq]
      · rw [← heq]
        exact jobStatus_eq_amended p (hU p hp)

/-- Witness for `merged_job_status` at a concrete run: one application,
one profile with a current title `"Dev"` whose matching entry names
`"Acme"`. -/
theorem merged_job_status_witness :
    ∃ c p, (⟨1, some 1, "X", "Dev at Acme", some 1⟩ : MergedHit).candidateId = some c
      ∧ profileLookup
          [⟨10, some 1, "X", some "Dev", [⟨some "Dev", some "Acme"⟩], some 1⟩] c = some p
      ∧ (⟨1, some 1, "X", "Dev at Acme", some 1⟩ : MergedHit).job_status
          = jobStatusAmended p :=
  merged_job_status [⟨1, some 1, 5, "Applied"⟩] 5
    [⟨10, some 1, "X", some "Dev", [⟨some "Dev", some "Acme"⟩], some 1⟩] 1 10
    (by decide) ⟨1, some 1, "X", "Dev at Acme", some 1⟩ (by decide)

/-- **C6 (counterexample).** A profile with *no* current job title but a
non-empty experience list does not get `job_status = "Fresher"`: the
`elif profile.experience` branch (search_service.py:175-178) renders
`"<first title> at <first company>"` instead — here `"Dev at Acme"`. -/
theorem merged_job_status_cex :
    ((searchAppliedMerge [⟨1, some 1, 5, "Applied"⟩] 5
        [⟨10, some 1, "X", none, [⟨some "Dev", some "Acme"⟩], some 1⟩] 1 10).results.map
        (fun m => m.job_status)) = ["Dev at Acme"]
    ∧ (([⟨10, some 1, "X", none, [⟨some "Dev", some "Acme"⟩], some 1⟩] : List MHit).all
        (fun h => h.current_job_title == none))
    ∧ "Dev at Acme" ≠ "Fresher" := by
  decide

/-! ### Arithmetic facts about the cosine score -/

theorem dotQ_cons (a : ℚ) (q : List ℚ) (b : ℚ) (v : List ℚ) :
    dotQ (a :: q) (b :: v) = a * b + dotQ q v := by
  simp [dotQ]

theorem dotQ_smul_left (c : ℚ) : ∀ q v : List ℚ,
    dotQ (q.map (fun x => c * x)) v = c * dotQ q v
  | [], v => by simp [dotQ]
  | a :: q, [] => by simp [dotQ]
  | a :: q, b :: v => by
      rw [List.map_cons, dotQ_cons, dotQ_cons, dotQ_smul_left c q v]; ring

theorem dotQ_comm : ∀ q v : List ℚ, dotQ q v = dotQ v q
  | [], v => by cases v <;> simp [dotQ]
  | a :: q, [] => by simp [dotQ]
  | a :: q, b :: v => by rw [dotQ_cons, dotQ_cons, dotQ_comm q v]; ring

theorem dotQ_smul_right (c : ℚ) (q v : List ℚ) :
    dotQ q (v.map (fun x => c * x)) = c * dotQ q v := by
  rw [dotQ_comm, dotQ_smul_left, dotQ_comm]

theorem normSq_nonneg : ∀ v : List ℚ, 0 ≤ normSq v
  | [] => le_refl 0
  | a :: v => by
      have ih := normSq_nonneg v
      have h1 : normSq (a :: v) = a * a + normSq v := dotQ_cons a v a v
      nlinarith [mul_self_nonneg a]

theorem normSq_smul (c : ℚ) (v : List ℚ) :
    normSq (v.map (fun x => c * x)) = c ^ 2 * normSq v := by
  unfold normSq
  rw [dotQ_smul_left, dotQ_smul_right]; ring

theorem vnorm_smul (c : ℚ) (hc : 0 < c) (v : List ℚ) :
    vnorm (v.map (fun x => c * x)) = (c : ℝ) * vnorm v := by
  unfold vnorm
  rw [normSq_smul]
  push_cast
  rw [Real.sqrt_mul (by positivity) , Real.sqrt_sq (by positivity)]

/-- A vector with a non-zero entry has positive squared norm. -/
theorem normSq_pos_of_ne : ∀ v : List ℚ, (∃ x ∈ v, x ≠ 0) → 0 < normSq v
  | [], h => by simp at h
  | a :: v, h => by
      have h1 : normSq (a :: v) = a * a + normSq v := dotQ_cons a v a v
      rcases h with ⟨x, hx, hxne⟩
      rcases List.mem_cons.mp hx with rfl | hxv
      · nlinarith [normSq_nonneg v, mul_self_pos.mpr hxne]
      · have := normSq_pos_of_ne v ⟨x, hxv, hxne⟩
        nlinarith [mul_self_nonneg a]

/-- **C4.** In exact manual scoring the similarity score is `0.0` — never
an error — whenever the candidate's embedding vector is missing or empty,
or either norm is zero; otherwise the score is
`dot(query, candidate) / (‖query‖ · ‖candidate‖)`: the division only ever
happens under the `jd_norm > 0 and cand_norm > 0` guard. -/
theorem manual_score_guarded (jd : List ℚ) (ev : Option (List ℚ)) :
    (ev = none → docScore jd ev = 0)
    ∧ (ev = some [] → docScore jd ev = 0)
    ∧ (∀ v, ev = some v → vnorm jd = 0 → docScore jd ev = 0)
    ∧ (∀ v, ev = some v → vnorm v = 0 → docScore jd ev = 0)
    ∧ (∀ v, ev = some v → v ≠ [] → vnorm jd ≠ 0 → vnorm v ≠ 0 →
        docScore jd ev = ((dotQ jd v : ℚ) : ℝ) / (vnorm jd * vnorm v)) := by
  refine ⟨fun h => by rw [h]; rfl, fun h => by rw [h]; rfl, ?_, ?_, ?_⟩
  · rintro v rfl h0
    unfold docScore
    by_cases hemp : v.isEmpty
    · simp [hemp]
    · simp only [hemp, Bool.false_eq_true, if_false]
      unfold scoreVec
      rw [if_neg]
      rintro ⟨hq, -⟩
      rw [h0] at hq
      exact lt_irrefl 0 hq
  · rintro v rfl h0
    unfold docScore
    by_cases hemp : v.isEmpty
    · simp [hemp]
    · simp only [hemp, Bool.false_eq_true, if_false]
      unfold scoreVec
      rw [if_neg]
      rintro ⟨-, hv⟩
      rw [h0] at hv
      exact lt_irrefl 0 hv
  · rintro v rfl hne hq hv
    unfold docScore
    show (if v.isEmpty = true then (0 : ℝ) else scoreVec jd v) = _
    rw [if_neg (by simpa [List.isEmpty_iff] using hne)]
    unfold scoreVec
    rw [if_pos ⟨lt_of_le_of_ne (Real.sqrt_nonneg _) (Ne.symm hq),
      lt_of_le_of_ne (Real.sqrt_nonneg _) (Ne.symm hv)⟩]

/-- Witness for `manual_score_guarded`: query `[1]` against candidate
vector `[1]` scores `dot/(‖·‖·‖·‖) = 1/1`. -/
theorem manual_score_guarded_witness :
    docScore [1] (some [1]) = ((dotQ [1] [1] : ℚ) : ℝ) / (vnorm [1] * vnorm [1]) :=
  (manual_score_guarded [1] (some [1])).2.2.2.2 [1] rfl (by simp)
    (by unfold vnorm; norm_num [normSq, dotQ])
    (by unfold vnorm; norm_num [normSq, dotQ])

/-- **C9.** The manual cosine score is a pure function of its inputs
(deterministic by construction); `score(v, v) = 1` for every vector with
non-zero squared norm; and the score is invariant under scaling either
vector by a positive rational. -/
theorem manual_score_determinism :
    (∀ v : List ℚ, (∃ x ∈ v, x ≠ 0) → scoreVec v v = 1)
    ∧ (∀ c : ℚ, 0 < c → ∀ q v : List ℚ,
        scoreVec (q.map (fun x => c * x)) v = scoreVec q v
        ∧ scoreVec q (v.map (fun x => c * x)) = scoreVec q v) := by
  constructor
  · intro v hv
    have hposQ : (0 : ℚ) < normSq v := normSq_pos_of_ne v hv
    have hpos : (0 : ℝ) < ((normSq v : ℚ) : ℝ) := by exact_mod_cast hposQ
    have hn : 0 < vnorm v := Real.sqrt_pos.mpr hpos
    unfold scoreVec
    rw [if_pos ⟨hn, hn⟩]
    unfold vnorm
    rw [Real.mul_self_sqrt hpos.le]
    exact div_self hpos.ne'
  · intro c hc q v
    have hcR : (0 : ℝ) < (c : ℝ) := by exact_mod_cast hc
    constructor
    · unfold scoreVec
      rw [vnorm_smul c hc q, dotQ_smul_left]
      by_cases hg : 0 < vnorm q ∧ 0 < vnorm v
      · rw [if_pos ⟨mul_pos hcR hg.1, hg.2⟩, if_pos hg]
        push_cast
        rw [mul_assoc ((c : ℝ)) (vnorm q) (vnorm v)]
        exact mul_div_mul_left _ _ hcR.ne'
      · rw [if_neg ?_, if_neg hg]
        rintro ⟨h1, h2⟩
        have hq : 0 < vnorm q := by nlinarith [Real.sqrt_nonneg ((normSq q : ℚ) : ℝ)]
        exact hg ⟨hq, h2⟩
    · unfold scoreVec
      rw [vnorm_smul c hc v, dotQ_smul_right]
      by_cases hg : 0 < vnorm q ∧ 0 < vnorm v
      · rw [if_pos ⟨hg.1, mul_pos hcR hg.2⟩, if_pos hg]
        push_cast
        rw [mul_left_comm (vnorm q) ((c : ℝ)) (vnorm v)]
        exact mul_div_mul_left _ _ hcR.ne'
      · rw [if_neg ?_, if_neg hg]
        rintro ⟨h1, h2⟩
        have hv : 0 < vnorm v := by nlinarith [Real.sqrt_nonneg ((normSq v : ℚ) : ℝ)]
        exact hg ⟨h1, hv⟩

/-- Witness for `manual_score_determinism`: `score([1],[1]) = 1` and
scaling `[1]` by `2` leaves the score against `[1]` unchanged. -/
theorem manual_score_determinism_witness :
    scoreVec [1] [1] = 1
    ∧ scoreVec ([(1 : ℚ)].map (fun x => 2 * x)) [1] = scoreVec [1] [1] :=
  ⟨manual_score_determinism.1 [1] ⟨1, by norm_num⟩,
    (manual_score_determinism.2 2 (by norm_num) [1] [1]).1⟩

/-- **C5 (amended).** `_fetch_and_rank_profiles_manually` returns one hit
per fetched profile document, in fetch (collection) order, each carrying
the guarded cosine score of its embedding vector against the query — it
applies **no** sort of its own; the descending sort happens later, in
`search_applied` (search_service.py:203). -/
theorem manual_rank_fetch_order (profiles : List ProfileDoc) (jd : List ℚ)
    (ids : List ℕ) :
    (fetchAndRankManually profiles jd ids).map (fun h => h.candidate_id)
      = (if ids.isEmpty then [] else (rankedDocs profiles ids).map (fun d => d.id))
    ∧ (fetchAndRankManually profiles jd ids).map (fun h => h.similarity_score)
      = (if ids.isEmpty then []
         else (rankedDocs profiles ids).map (fun d => docScore jd d.embedding_vector)) := by
  by_cases h : ids.isEmpty <;> simp [fetchAndRankManually, h]

/-- **C5 (counterexample).** The manual-scoring sub-mode does **not**
return its hits sorted descending by similarity score: with the profiles
stored in the order (vector `[-1,0]`, vector `[1,0]`) and query `[1,0]`,
the returned scores are `[-1, 1]`, i.e. ascending. -/
theorem manual_rank_not_sorted_cex :
    ¬ ((fetchAndRankManually
        [⟨1, some 1, some [-1, 0], ⟨none, none, none⟩, []⟩,
         ⟨2, some 2, some [1, 0], ⟨none, none, none⟩, []⟩]
        [1, 0] [1, 2]).map (fun h => h.similarity_score)).Sorted (· ≥ ·) := by
  have hn1 : vnorm [1, 0] = 1 := by
    unfold vnorm
    norm_num [normSq, dotQ]
  have hn2 : vnorm [-1, 0] = 1 := by
    unfold vnorm
    norm_num [normSq, dotQ]
  have h1 : docScore [1, 0] (some [-1, 0]) = -1 := by
    unfold docScore
    show (if ([(-1 : ℚ), 0]).isEmpty = true then (0 : ℝ) else scoreVec [1, 0] [-1, 0]) = -1
    rw [if_neg (by simp)]
    unfold scoreVec
    rw [hn1, hn2, if_pos ⟨one_pos, one_pos⟩]
    norm_num [dotQ]
  have h2 : docScore [1, 0] (some [1, 0]) = 1 := by
    unfold docScore
    show (if ([(1 : ℚ), 0]).isEmpty = true then (0 : ℝ) else scoreVec [1, 0] [1, 0]) = 1
    rw [if_neg (by simp)]
    unfold scoreVec
    rw [hn1, if_pos ⟨one_pos, one_pos⟩]
    norm_num [dotQ]
  have hmap : (fetchAndRankManually
        [⟨1, some 1, some [-1, 0], ⟨none, none, none⟩, []⟩,
         ⟨2, some 2, some [1, 0], ⟨none, none, none⟩, []⟩]
        [1, 0] [1, 2]).map (fun h => h.similarity_score)
      = [docScore [1, 0] (some [-1, 0]), docScore [1, 0] (some [1, 0])] := by
    simp [fetchAndRankManually, rankedDocs, List.filter]
  rw [hmap, h1, h2]
  intro hs
  have := List.rel_of_sorted_cons hs 1 (by simp)
  norm_num at this

end CandidateRec
